import Mathlib

/-!
Verification of the core power analyzer benchmark suite against its
specification.  Each Python routine of `github_actions_core_power_analyzer.py`
that the claims touch is shallowly embedded below: pure loops become Lean
functions, Python's arbitrary-precision integers become `Nat`/`Int`, floats
become `ℚ`, the shared mutable `self.results` dict becomes an explicit
association-list `Store` threaded through each step, and a Python runtime
error (`ZeroDivisionError`) becomes `Option`/`Except` failure.  Wall-clock
measurement is not embeddable, so every benchmark model takes the measured
elapsed duration (seconds) as an explicit `ℚ` parameter and models exactly
what the code does with that measurement.
-/

/-- Embeds the accumulation loop of `benchmark_single_core_arithmetic`
(`total = 0; for i in range(iterations): total += i`). -/
def total_acc (iterations : Nat) : Nat :=
  (List.range iterations).foldl (fun total i => total + i) 0

/-- Embeds the inner `fib` of `benchmark_fibonacci_single_thread`:
`if n <= 1: return n` and otherwise `fib(n-1) + fib(n-2)`. -/
def fib (n : Nat) : Nat :=
  if n ≤ 1 then n else fib (n - 1) + fib (n - 2)
termination_by n
decreasing_by
· omega
· omega

/-- Embeds the trial-division loop of `is_prime` over the odd candidates
`range(3, b + 1, 2)`, where `b` stands for the loop bound the program
computed as `int(math.sqrt(n))`; the Python range of step 2 from 3 up to
(but excluding) `b + 1` has `(b - 1) / 2` elements. -/
def trial_loop (n b : Nat) : Bool :=
  (List.range' 3 ((b - 1) / 2) 2).all (fun i => n % i != 0)

/-- Embeds `is_prime` of `benchmark_prime_finding`: reject `n < 2`, accept 2,
reject even `n`, then run the trial loop with bound `int(math.sqrt(n))`.
The bound is modelled here as the exact integer square root `Nat.sqrt n`;
the program computes it in double precision, which matches the exact root at
benchmark scale but under-estimates it on squares of primes just above 2^53,
where the program and this exact-root model diverge — that divergence is
claim C3 (`float_sqrt_pseudoprime`). -/
def is_prime (n : Nat) : Bool :=
  if n < 2 then false
  else if n = 2 then true
  else if n % 2 = 0 then false
  else trial_loop n (Nat.sqrt n)

/-- Embeds the list comprehension
`primes = [n for n in range(2, limit) if is_prime(n)]`. -/
def primesList (limit : Nat) : List Nat :=
  (List.range' 2 (limit - 2) 1).filter (fun n => is_prime n)

/-- Embeds `len(primes)`: the number of primes found below `limit`. -/
def primeCount (limit : Nat) : Nat := (primesList limit).length

/-- Modelled from the spec: the "reference sieve" the spec compares the
benchmark's prime count against.  A sieve below `limit` produces exactly the
numbers in `[0, limit)` that are mathematically prime, so its count is the
length of that filtered list. -/
def sieveCount (limit : Nat) : Nat :=
  ((List.range limit).filter (fun n => decide (Nat.Prime n))).length

/-- Modular exponentiation by repeated squaring, fuel-driven so that it is
kernel-reducible; used to certify the primality of the large constant in
`float_sqrt_pseudoprime` via the Lucas test. -/
def powModAux (m : Nat) : Nat → Nat → Nat → Nat → Nat
  | 0, _, _, acc => acc
  | fuel + 1, b, e, acc =>
    cond (Nat.beq e 0) acc
      (powModAux m fuel (b * b % m) (e / 2)
        (cond (Nat.beq (e % 2) 1) (acc * b % m) acc))

/-- `powMod b e m` computes `b ^ e % m` (proved in `powMod_eq`); 64 squaring
steps cover every exponent below `2 ^ 64`. -/
def powMod (b e m : Nat) : Nat := powModAux m 64 (b % m) e (1 % m)

/-- A value of the shared `self.results` dict: the spec's ResultStore maps
metric names to a number, a string, or a sequence of numbers. -/
inductive Val where
  | num (q : ℚ)
  | str (s : String)
  | nums (l : List ℚ)
deriving DecidableEq

/-- The shared ResultStore (`self.results`), as an insertion-ordered
association list; assignment appends and lookup takes the last binding,
matching Python dict overwrite semantics. -/
abbrev Store := List (String × Val)

/-- Embeds `self.results[k] = v`. -/
def Store.set (s : Store) (k : String) (v : Val) : Store := s ++ [(k, v)]

/-- Embeds `self.results.get(k)` / `k in self.results`. -/
def Store.lookup (s : Store) (k : String) : Option Val :=
  (s.reverse.find? (fun kv => kv.1 == k)).map (fun kv => kv.2)

/-- Whether some key of the store currently holds the value `v`. -/
def stores_val (s : Store) (v : Val) : Bool :=
  s.any (fun kv => decide (kv.2 = v))

/-- Python truthiness of a stored value (`if x:`): zero, the empty string and
the empty list are falsy. -/
def truthy : Val → Bool
  | Val.num q => q != 0
  | Val.str s => s != ""
  | Val.nums l => !l.isEmpty

/-- Embeds the post-measurement tail of `benchmark_single_core_arithmetic`:
with elapsed `duration` seconds it computes `duration_ms`, `ops_per_sec =
iterations / duration` (a `ZeroDivisionError`, i.e. `none`, when
`duration == 0`), `gops = ops_per_sec / 1e9`, and stores
`arithmetic_benchmark_ms` and `arithmetic_gops` (only). -/
def benchmark_single_core_arithmetic (s : Store) (iterations : Nat) (duration : ℚ) :
    Option Store :=
  if duration = 0 then none
  else
    some ((s.set "arithmetic_benchmark_ms" (Val.num (duration * 1000))).set
      "arithmetic_gops" (Val.num (((iterations : ℚ) / duration) / 1000000000)))

/-- Embeds the post-measurement tail of `benchmark_fibonacci_single_thread`:
only `fibonacci_ms` is stored and nothing is divided. -/
def benchmark_fibonacci_single_thread (s : Store) (duration : ℚ) : Store :=
  s.set "fibonacci_ms" (Val.num (duration * 1000))

/-- Embeds the post-measurement tail of `benchmark_prime_finding`:
`numbers_per_sec = limit / duration` is computed (a `ZeroDivisionError`,
i.e. `none`, when `duration == 0`) but only `prime_finding_ms` and
`primes_found = len(primes)` are stored. -/
def benchmark_prime_finding (s : Store) (limit : Nat) (duration : ℚ) : Option Store :=
  if duration = 0 then none
  else
    some ((s.set "prime_finding_ms" (Val.num (duration * 1000))).set
      "primes_found" (Val.num ((primeCount limit : ℚ))))

/-- Embeds the post-measurement tail of `benchmark_memory_intensive`:
`elements_per_sec = size / duration` is computed (a `ZeroDivisionError`,
i.e. `none`, when `duration == 0`) but only `sort_benchmark_ms` is stored. -/
def benchmark_memory_intensive (s : Store) (size : Nat) (duration : ℚ) : Option Store :=
  if duration = 0 then none
  else some (s.set "sort_benchmark_ms" (Val.num (duration * 1000)))

/-- Embeds `calculate_core_power`: if either `cpu_count` or `avg_clock_mhz`
is missing from the store it warns and returns with the store untouched;
otherwise it stores the two theoretical-peak figures and the per-core
estimate.  `none` models the `TypeError` Python would raise if a key were
present but bound to a non-numeric value. -/
def calculate_core_power (s : Store) : Option Store :=
  if s.lookup "cpu_count" = none ∨ s.lookup "avg_clock_mhz" = none then some s
  else
    match s.lookup "cpu_count", s.lookup "avg_clock_mhz" with
    | some (Val.num cores), some (Val.num clock_mhz) =>
      some (((s.set "theoretical_peak_gflops_ipc1"
          (Val.num (cores * clock_mhz / 1000))).set
        "theoretical_peak_gflops_ipc2"
          (Val.num (cores * clock_mhz * 2 / 1000))).set
        "per_core_gflops" (Val.num (clock_mhz / 1000)))
    | _, _ => none

/-- The five ratings printed by `generate_performance_rating`. -/
inductive Tier where
  | excellent
  | good
  | acceptable
  | degraded
  | poor
deriving DecidableEq

/-- Embeds the threshold cascade of `generate_performance_rating` (the body
of `if arithmetic_ms:`): the elapsed-ms value is classified by the fixed
cutoffs 80 / 150 / 250 / 400, each tier with its fixed cause annotation. -/
def classify_arithmetic (ms : ℚ) : Tier × String :=
  if ms < 80 then (Tier.excellent, "Well-provisioned, no throttling")
  else if ms < 150 then (Tier.good, "Normal performance")
  else if ms < 250 then (Tier.acceptable, "Some system load or throttling")
  else if ms < 400 then (Tier.degraded, "Possible thermal throttling")
  else (Tier.poor, "Significant throttling or overload")

/-- The three core-count capacity classes printed by
`generate_performance_rating`. -/
inductive CoreTier where
  | publicRepo
  | privateRepo
  | limited
deriving DecidableEq

/-- Embeds the arithmetic half of `generate_performance_rating`:
`arithmetic_ms = self.results.get(...)` followed by the truthiness test
`if arithmetic_ms:`.  `Except.ok none` means the step printed no rating;
`Except.error ()` models the `TypeError` Python would raise comparing a
truthy non-number against 80. -/
def rate_arithmetic (s : Store) : Except Unit (Option (Tier × String)) :=
  match s.lookup "arithmetic_benchmark_ms" with
  | none => Except.ok none
  | some (Val.num ms) =>
    if ms = 0 then Except.ok none else Except.ok (some (classify_arithmetic ms))
  | some v => if truthy v then Except.error () else Except.ok none

/-- Embeds the core-count half of `generate_performance_rating`:
`cores = self.results.get("cpu_count")` followed by `if cores:` and the
`>= 4` / `>= 2` cascade. -/
def rate_core_count (s : Store) : Except Unit (Option CoreTier) :=
  match s.lookup "cpu_count" with
  | none => Except.ok none
  | some (Val.num cores) =>
    if cores = 0 then Except.ok none
    else
      Except.ok (some (if 4 ≤ cores then CoreTier.publicRepo
        else if 2 ≤ cores then CoreTier.privateRepo else CoreTier.limited))
  | some v => if truthy v then Except.error () else Except.ok none

/-- Embeds `lst = list(range(size, 0, -1))` of `benchmark_memory_intensive`:
the descending list `size, size-1, ..., 1`. -/
def build_desc : Nat → List Int
  | 0 => []
  | n + 1 => ((n : Int) + 1) :: build_desc n

/-- Embeds `lst.sort()`: Python's ascending in-place sort, modelled as a
stable comparison sort on the same elements. -/
def list_sort (l : List Int) : List Int := l.mergeSort (fun a b => decide (a ≤ b))

/-! ## Arithmetic accumulation -/

theorem total_acc_succ (n : Nat) : total_acc (n + 1) = total_acc n + n := by
  unfold total_acc
  rw [List.range_succ, List.foldl_append]
  rfl

theorem total_acc_twice (n : Nat) : 2 * total_acc n = n * (n - 1) := by
  induction n with
  | zero => rfl
  | succ m ih =>
    rw [total_acc_succ, Nat.mul_add, ih]
    cases m with
    | zero => rfl
    | succ k =>
      simp only [Nat.succ_sub_one]
      ring

/-- C1: summing the integers from 0 to N-1 sequentially into one accumulator
gives exactly N*(N-1)/2; in particular 45 for N = 10 and 4999999950000000
for N = 100,000,000. -/
theorem arithmetic_accumulation_closed_form :
    (∀ N, total_acc N = N * (N - 1) / 2) ∧
    total_acc 10 = 45 ∧ total_acc 100000000 = 4999999950000000 := by
  have h : ∀ N, total_acc N = N * (N - 1) / 2 := by
    intro N
    have := total_acc_twice N
    omega
  refine ⟨h, ?_, ?_⟩
  · rw [h]
  · rw [h]

/-! ## Recursive Fibonacci -/

theorem fib_eq_fib (n : Nat) : fib n = Nat.fib n := by
  induction n using Nat.strong_induction_on with
  | _ n ih =>
    match n, ih with
    | 0, _ => simp [fib]
    | 1, _ => simp [fib]
    | n + 2, ih =>
      rw [fib]
      have h1 : n + 2 - 1 = n + 1 := rfl
      have h2 : n + 2 - 2 = n := rfl
      rw [if_neg (by omega), h1, h2, ih (n + 1) (by omega), ih n (by omega),
        Nat.fib_add_two, Nat.add_comm]

/-- C2: the benchmark's naive doubly recursive `fib` computes the canonical
Fibonacci sequence; in particular Fib(10) = 55 and Fib(35) = 9227465. -/
theorem fibonacci_matches_canonical :
    (∀ n, fib n = Nat.fib n) ∧ fib 10 = 55 ∧ fib 35 = 9227465 := by
  refine ⟨fib_eq_fib, ?_, ?_⟩
  · rw [fib_eq_fib]
    decide
  · rw [fib_eq_fib]
    decide

/-! ## ResultStore lemmas -/

theorem Store.lookup_set_self (s : Store) (k : String) (v : Val) :
    (s.set k v).lookup k = some v := by
  unfold Store.set Store.lookup
  rw [List.reverse_append]
  simp

theorem Store.lookup_set_ne (s : Store) (k k' : String) (v : Val) (h : k' ≠ k) :
    (s.set k v).lookup k' = s.lookup k' := by
  unfold Store.set Store.lookup
  rw [List.reverse_append]
  have hb : (k == k') = false := beq_eq_false_iff_ne.mpr (Ne.symm h)
  simp [List.find?_cons, hb]

/-! ## MetricsDeriver -/

/-- C5: with `cpu_count` and `avg_clock_mhz` both present, the metrics step
stores the IPC=1 and IPC=2 theoretical peaks under distinct keys, each equal
to cores * clock_mhz * ipc / 1000, stores the per-core estimate
clock_mhz / 1000, and the IPC=2 figure is exactly double the IPC=1 figure. -/
theorem metrics_peak_gflops (s : Store) (cores clock_mhz : ℚ)
    (h1 : s.lookup "cpu_count" = some (Val.num cores))
    (h2 : s.lookup "avg_clock_mhz" = some (Val.num clock_mhz)) :
    ∃ s2, calculate_core_power s = some s2 ∧
      s2.lookup "theoretical_peak_gflops_ipc1" =
        some (Val.num (cores * clock_mhz * 1 / 1000)) ∧
      s2.lookup "theoretical_peak_gflops_ipc2" =
        some (Val.num (cores * clock_mhz * 2 / 1000)) ∧
      s2.lookup "per_core_gflops" = some (Val.num (clock_mhz / 1000)) ∧
      cores * clock_mhz * 2 / 1000 = 2 * (cores * clock_mhz * 1 / 1000) := by
  unfold calculate_core_power
  rw [if_neg (by simp [h1, h2])]
  rw [h1, h2]
  refine ⟨_, rfl, ?_, ?_, ?_, by ring⟩
  · rw [Store.lookup_set_ne _ _ _ _ (by decide), Store.lookup_set_ne _ _ _ _ (by decide),
      Store.lookup_set_self]
    simp only [Option.some.injEq, Val.num.injEq]
    ring
  · rw [Store.lookup_set_ne _ _ _ _ (by decide), Store.lookup_set_self]
  · rw [Store.lookup_set_self]

theorem metrics_peak_gflops_witness :
    ∃ s2, calculate_core_power
        [("cpu_count", Val.num 4), ("avg_clock_mhz", Val.num 3000)] = some s2 ∧
      s2.lookup "theoretical_peak_gflops_ipc1" = some (Val.num 12) ∧
      s2.lookup "theoretical_peak_gflops_ipc2" = some (Val.num 24) := by
  obtain ⟨s2, hc, hi1, hi2, _, _⟩ :=
    metrics_peak_gflops [("cpu_count", Val.num 4), ("avg_clock_mhz", Val.num 3000)]
      4 3000 rfl rfl
  refine ⟨s2, hc, ?_, ?_⟩
  · rw [hi1]
    simp only [Option.some.injEq, Val.num.injEq]
    norm_num
  · rw [hi2]
    simp only [Option.some.injEq, Val.num.injEq]
    norm_num

/-- C6: if `cpu_count` or `avg_clock_mhz` is missing, the metrics step does
not crash and returns with the ResultStore unchanged, so no theoretical-peak
or per-core key is added. -/
theorem metrics_missing_prereq_skip (s : Store)
    (h : s.lookup "cpu_count" = none ∨ s.lookup "avg_clock_mhz" = none) :
    calculate_core_power s = some s := by
  unfold calculate_core_power
  rw [if_pos h]

theorem metrics_missing_prereq_skip_witness :
    calculate_core_power [] = some [] :=
  metrics_missing_prereq_skip [] (Or.inl rfl)

/-! ## Benchmark recording -/

/-- C7 (counterexample): the sort benchmark on size 5 with a measured 2 s
stores only `sort_benchmark_ms`; no stored value equals the
elements-per-second figure 5 / 2 the claim says is recorded. -/
theorem benchmarks_record_all_metrics_cex :
    benchmark_memory_intensive [] 5 2 = some [("sort_benchmark_ms", Val.num 2000)] ∧
    stores_val [("sort_benchmark_ms", Val.num 2000)] (Val.num (5 / 2)) = false := by
  constructor
  · unfold benchmark_memory_intensive
    rw [if_neg (by norm_num)]
    simp only [Store.set, List.nil_append, Option.some.injEq]
    norm_num
  · unfold stores_val
    simp only [List.any_cons, List.any_nil, Bool.or_false, decide_eq_false_iff_not,
      Val.num.injEq]
    norm_num

/-- C7 (amended): each benchmark stores its elapsed milliseconds, the
arithmetic benchmark additionally stores gigaops = (N / elapsed_s) / 1e9, the
prime benchmark additionally stores the count of primes found, and the sort
benchmark stores nothing besides its elapsed milliseconds; the remaining
derived rates (ops/s, numbers-checked/s, elements/s) are computed for display
but not recorded in the ResultStore. -/
theorem benchmarks_recorded_fields (s : Store) (iterations limit size : Nat) (d : ℚ)
    (hd : d ≠ 0) :
    ∃ sa sp ss,
      benchmark_single_core_arithmetic s iterations d = some sa ∧
      sa.lookup "arithmetic_benchmark_ms" = some (Val.num (d * 1000)) ∧
      sa.lookup "arithmetic_gops" =
        some (Val.num (((iterations : ℚ) / d) / 1000000000)) ∧
      benchmark_prime_finding s limit d = some sp ∧
      sp.lookup "prime_finding_ms" = some (Val.num (d * 1000)) ∧
      sp.lookup "primes_found" = some (Val.num ((primeCount limit : ℚ))) ∧
      benchmark_memory_intensive s size d = some ss ∧
      ss.lookup "sort_benchmark_ms" = some (Val.num (d * 1000)) ∧
      ∀ k, k ≠ "sort_benchmark_ms" → ss.lookup k = s.lookup k := by
  unfold benchmark_single_core_arithmetic benchmark_prime_finding
    benchmark_memory_intensive
  simp only [if_neg hd]
  refine ⟨_, _, _, rfl, ?_, ?_, rfl, ?_, ?_, rfl, ?_, ?_⟩
  · rw [Store.lookup_set_ne _ _ _ _ (by decide), Store.lookup_set_self]
  · rw [Store.lookup_set_self]
  · rw [Store.lookup_set_ne _ _ _ _ (by decide), Store.lookup_set_self]
  · rw [Store.lookup_set_self]
  · rw [Store.lookup_set_self]
  · intro k hk
    rw [Store.lookup_set_ne _ _ _ _ hk]

theorem benchmarks_recorded_fields_witness :
    ∃ ss, benchmark_memory_intensive [] 10 1 = some ss ∧
      ss.lookup "sort_benchmark_ms" = some (Val.num (1 * 1000)) := by
  obtain ⟨sa, sp, ss, _, _, _, _, _, _, h7, h8, _⟩ :=
    benchmarks_recorded_fields [] 10 10 10 1 (by norm_num)
  exact ⟨ss, h7, h8⟩

/-- C8: none of the three throughput computations guards the division by the
elapsed time; a measured duration of exactly zero makes each benchmark fail
with a ZeroDivisionError (modelled as `none`) instead of taking a fallback. -/
theorem zero_elapsed_division_crashes :
    benchmark_single_core_arithmetic [] 100000000 0 = none ∧
    benchmark_prime_finding [] 100000 0 = none ∧
    benchmark_memory_intensive [] 5000000 0 = none := by
  refine ⟨?_, ?_, ?_⟩ <;>
    simp [benchmark_single_core_arithmetic, benchmark_prime_finding,
      benchmark_memory_intensive]

/-! ## RatingEngine -/

/-- C4: inside the rating step, the elapsed-ms classification is a pure total
function partitioning the non-negative line at 80 / 150 / 250 / 400 with the
fixed cause annotations; each boundary value falls into the worse tier. -/
theorem arithmetic_tier_total_classification (ms : ℚ) (h : 0 ≤ ms) :
    (ms < 80 ↔
      classify_arithmetic ms = (Tier.excellent, "Well-provisioned, no throttling")) ∧
    ((80 ≤ ms ∧ ms < 150) ↔
      classify_arithmetic ms = (Tier.good, "Normal performance")) ∧
    ((150 ≤ ms ∧ ms < 250) ↔
      classify_arithmetic ms = (Tier.acceptable, "Some system load or throttling")) ∧
    ((250 ≤ ms ∧ ms < 400) ↔
      classify_arithmetic ms = (Tier.degraded, "Possible thermal throttling")) ∧
    (400 ≤ ms ↔
      classify_arithmetic ms = (Tier.poor, "Significant throttling or overload")) := by
  unfold classify_arithmetic
  split_ifs with h1 h2 h3 h4 <;>
    refine ⟨?_, ?_, ?_, ?_, ?_⟩ <;>
    simp only [Prod.mk.injEq] <;>
    constructor <;>
    intro hx <;>
    simp_all <;>
    linarith

theorem arithmetic_tier_total_classification_witness :
    classify_arithmetic 80 = (Tier.good, "Normal performance") :=
  ((arithmetic_tier_total_classification 80 (by norm_num)).2.1).mp (by norm_num)

/-- C10: the rating step gates on Python truthiness, not key membership: a
stored value of exactly 0 for `arithmetic_benchmark_ms` or `cpu_count`
produces no tier, exactly like an absent key. -/
theorem rating_truthiness_gate (s : Store) :
    (s.lookup "arithmetic_benchmark_ms" = some (Val.num 0) →
      rate_arithmetic s = Except.ok none) ∧
    (s.lookup "arithmetic_benchmark_ms" = none →
      rate_arithmetic s = Except.ok none) ∧
    (s.lookup "cpu_count" = some (Val.num 0) →
      rate_core_count s = Except.ok none) ∧
    (s.lookup "cpu_count" = none →
      rate_core_count s = Except.ok none) := by
  refine ⟨?_, ?_, ?_, ?_⟩ <;> intro h
  · unfold rate_arithmetic
    rw [h]
    simp
  · unfold rate_arithmetic
    rw [h]
  · unfold rate_core_count
    rw [h]
    simp
  · unfold rate_core_count
    rw [h]

theorem rating_truthiness_gate_witness :
    rate_arithmetic [("arithmetic_benchmark_ms", Val.num 0), ("cpu_count", Val.num 0)] =
        Except.ok none ∧
    rate_core_count [("arithmetic_benchmark_ms", Val.num 0), ("cpu_count", Val.num 0)] =
        Except.ok none :=
  ⟨(rating_truthiness_gate _).1 rfl, (rating_truthiness_gate _).2.2.1 rfl⟩

/-! ## Sort benchmark -/

theorem build_desc_perm (n : Nat) :
    (build_desc n).Perm ((List.range' 1 n 1).map (fun k => Int.ofNat k)) := by
  induction n with
  | zero => simp [build_desc]
  | succ m ih =>
    have hr : List.range' 1 (m + 1) 1 = List.range' 1 m 1 ++ [m + 1] := by
      have h := List.range'_append 1 m 1 1
      simp only [List.range'_one, Nat.one_mul] at h
      rw [show 1 + m = m + 1 from Nat.add_comm 1 m] at h
      exact h.symm
    rw [hr, List.map_append]
    simp only [List.map_cons, List.map_nil]
    have hc : Int.ofNat (m + 1) = (m : Int) + 1 := by simp
    rw [hc]
    show (((m : Int) + 1) :: build_desc m).Perm _
    exact (List.Perm.cons _ ih).trans (List.perm_append_singleton _ _).symm

theorem asc_sorted (n : Nat) :
    ((List.range' 1 n 1).map (fun k => Int.ofNat k)).Sorted (fun a b => a ≤ b) := by
  have hp := List.pairwise_lt_range' 1 n 1 (by omega)
  exact List.Pairwise.map _ (fun a b h => Int.ofNat_le.mpr (Nat.le_of_lt h)) hp

theorem list_sort_sorted (l : List Int) : (list_sort l).Sorted (fun a b => a ≤ b) := by
  have htrans : ∀ a b c : Int, decide (a ≤ b) = true → decide (b ≤ c) = true →
      decide (a ≤ c) = true := by
    intro a b c hab hbc
    simp only [decide_eq_true_eq] at *
    exact le_trans hab hbc
  have htotal : ∀ a b : Int, (decide (a ≤ b) || decide (b ≤ a)) = true := by
    intro a b
    simp only [Bool.or_eq_true, decide_eq_true_eq]
    exact le_total a b
  have hp := @List.sorted_mergeSort Int (fun a b => decide (a ≤ b)) htrans htotal l
  exact hp.imp (fun h => of_decide_eq_true h)

theorem list_sort_perm (l : List Int) : (list_sort l).Perm l := List.mergeSort_perm l _

/-- C9: the sort benchmark's sort returns a non-decreasing permutation of any
input, and on the built input `size, size-1, ..., 1` it returns exactly
`1, 2, ..., size`. -/
theorem sort_benchmark_correct :
    (∀ l : List Int, (list_sort l).Sorted (fun a b => a ≤ b) ∧ (list_sort l).Perm l) ∧
    (∀ size : Nat,
      list_sort (build_desc size) = (List.range' 1 size 1).map (fun k => Int.ofNat k)) := by
  constructor
  · exact fun l => ⟨list_sort_sorted l, list_sort_perm l⟩
  · intro size
    exact List.eq_of_perm_of_sorted ((list_sort_perm _).trans (build_desc_perm _))
      (list_sort_sorted _) (asc_sorted _)

/-! ## Prime counting -/

theorem trial_loop_eq_true_iff (n b : Nat) :
    trial_loop n b = true ↔ (∀ j, 3 ≤ j → j ≤ b → j % 2 = 1 → ¬ j ∣ n) := by
  unfold trial_loop
  rw [List.all_eq_true]
  constructor
  · intro h j h3 hjb hodd hdvd
    have hj : j ∈ List.range' 3 ((b - 1) / 2) 2 := by
      rw [List.mem_range']
      exact ⟨(j - 3) / 2, by omega, by omega⟩
    have hne := h j hj
    simp only [bne_iff_ne, ne_eq] at hne
    exact hne (Nat.dvd_iff_mod_eq_zero.mp hdvd)
  · intro h i hi
    rw [List.mem_range'] at hi
    obtain ⟨c, hc, rfl⟩ := hi
    simp only [bne_iff_ne, ne_eq]
    intro hmod
    exact h (3 + 2 * c) (by omega) (by omega) (by omega) (Nat.dvd_of_mod_eq_zero hmod)

theorem noOdd_iff_prime (n : Nat) (hn : 2 < n) (hodd : n % 2 = 1) :
    (∀ j, 3 ≤ j → j ≤ Nat.sqrt n → j % 2 = 1 → ¬ j ∣ n) ↔ Nat.Prime n := by
  constructor
  · intro h
    rw [Nat.prime_def_le_sqrt]
    refine ⟨by omega, fun m h2 hle hdvd => ?_⟩
    rcases Nat.even_or_odd m with he | ho
    · have h2n : (2 : Nat) ∣ n := dvd_trans he.two_dvd hdvd
      omega
    · have hm2 := Nat.odd_iff.mp ho
      exact h m (by omega) hle hm2 hdvd
  · intro hp j h3 hsq hjodd hdvd
    rcases hp.eq_one_or_self_of_dvd j hdvd with h1 | h1
    · omega
    · have hlt := Nat.sqrt_lt_self (show 1 < n by omega)
      omega

theorem is_prime_eq_true_iff (n : Nat) : is_prime n = true ↔ Nat.Prime n := by
  unfold is_prime
  by_cases h2 : n < 2
  · rw [if_pos h2]
    simp only [Bool.false_eq_true, false_iff]
    intro hp
    exact absurd hp.two_le (by omega)
  · rw [if_neg h2]
    by_cases he2 : n = 2
    · subst he2
      simp [Nat.prime_two]
    · rw [if_neg he2]
      by_cases hev : n % 2 = 0
      · rw [if_pos hev]
        simp only [Bool.false_eq_true, false_iff]
        intro hp
        rcases hp.eq_one_or_self_of_dvd 2 (Nat.dvd_of_mod_eq_zero hev) with h | h <;> omega
      · rw [if_neg hev]
        rw [trial_loop_eq_true_iff]
        exact noOdd_iff_prime n (by omega) (by omega)

theorem primeCount_eq_sieveCount (L : Nat) : primeCount L = sieveCount L := by
  unfold primeCount primesList sieveCount
  rw [← List.countP_eq_length_filter, ← List.countP_eq_length_filter]
  rcases Nat.lt_or_ge L 2 with hL | hL
  · match L, hL with
    | 0, _ => rfl
    | 1, _ =>
      simp [List.range_succ, List.range_zero, List.countP_cons, List.countP_append,
        Nat.not_prime_zero]
  · obtain ⟨m, rfl⟩ : ∃ m, L = m + 2 := ⟨L - 2, by omega⟩
    rw [List.range_eq_range']
    have happ := List.range'_append 0 2 m 1
    simp only [Nat.one_mul] at happ
    rw [← happ, List.countP_append]
    have h01 : (List.range' 0 2 1).countP (fun n => decide (Nat.Prime n)) = 0 := by
      rw [show List.range' 0 2 1 = [0, 1] from rfl]
      simp [List.countP_cons, Nat.not_prime_zero, Nat.not_prime_one]
    rw [h01]
    rw [show m + 2 - 2 = m from by omega]
    simp only [Nat.zero_add]
    apply List.countP_congr
    intro x _
    rw [is_prime_eq_true_iff, decide_eq_true_eq]


theorem powModAux_eq (m : Nat) (hm : 1 < m) :
    ∀ fuel b e acc, e < 2 ^ fuel → b < m → acc < m →
      powModAux m fuel b e acc = acc * b ^ e % m := by
  intro fuel
  induction fuel with
  | zero =>
    intro b e acc he _ hacc
    have h0 : e = 0 := by
      have : (2 : Nat) ^ 0 = 1 := pow_zero 2
      omega
    subst h0
    simp [powModAux, Nat.mod_eq_of_lt hacc]
  | succ f ih =>
    intro b e acc he hb hacc
    rw [powModAux]
    cases he0 : Nat.beq e 0 with
    | true =>
      rw [cond_true]
      have h0 : e = 0 := Nat.eq_of_beq_eq_true he0
      subst h0
      simp [Nat.mod_eq_of_lt hacc]
    | false =>
      rw [cond_false]
      have hbb : b * b % m < m := Nat.mod_lt _ (by omega)
      have he2 : e / 2 < 2 ^ f := by
        have hps := pow_succ 2 f
        omega
      have key : ∀ x : Nat, x * ((b * b % m) ^ (e / 2)) % m = x * ((b * b) ^ (e / 2)) % m := by
        intro x
        conv_lhs => rw [Nat.mul_mod]
        conv_rhs => rw [Nat.mul_mod]
        rw [← Nat.pow_mod]
      cases hpar : Nat.beq (e % 2) 1 with
      | true =>
        rw [cond_true]
        have hodd : e % 2 = 1 := Nat.eq_of_beq_eq_true hpar
        have hacc2 : acc * b % m < m := Nat.mod_lt _ (by omega)
        rw [ih (b * b % m) (e / 2) (acc * b % m) he2 hbb hacc2, key]
        have hmm2 : (acc * b % m) * ((b * b) ^ (e / 2)) % m =
            (acc * b * ((b * b) ^ (e / 2))) % m := by
          conv_lhs => rw [Nat.mul_mod]
          conv_rhs => rw [Nat.mul_mod]
          rw [Nat.mod_mod_of_dvd _ dvd_rfl]
        rw [hmm2]
        congr 1
        have hb2 : b ^ e = (b * b) ^ (e / 2) * b := by
          rw [← pow_two, ← pow_mul]
          conv_lhs => rw [show e = 2 * (e / 2) + 1 from by omega]
          rw [pow_succ]
        rw [hb2]
        ring
      | false =>
        rw [cond_false]
        have heven : e % 2 = 0 := by
          have := Nat.ne_of_beq_eq_false hpar
          omega
        rw [ih (b * b % m) (e / 2) acc he2 hbb hacc, key]
        congr 1
        have hb2 : b ^ e = (b * b) ^ (e / 2) := by
          rw [← pow_two, ← pow_mul]
          congr 1
          omega
        rw [hb2]

theorem powMod_eq (b e m : Nat) (hm : 1 < m) (he : e < 2 ^ 64) :
    powMod b e m = b ^ e % m := by
  unfold powMod
  rw [powModAux_eq m hm 64 (b % m) e (1 % m) he (Nat.mod_lt _ (by omega))
    (Nat.mod_lt _ (by omega))]
  rw [Nat.mod_eq_of_lt hm, one_mul, ← Nat.pow_mod]

theorem powMod_zmod (m b e : Nat) (hm : 1 < m) (he : e < 2 ^ 64) :
    ((b : ℕ) : ZMod m) ^ e = ((powMod b e m : ℕ) : ZMod m) := by
  rw [powMod_eq b e m hm he, ZMod.natCast_mod, Nat.cast_pow]

theorem powMod_ne_one (m b e r : Nat) (a : ZMod m) (hab : ((b : ℕ) : ZMod m) = a)
    (hm : 1 < m) (he : e < 2 ^ 64) (hr : powMod b e m = r)
    (hner : ¬ r % m = 1 % m) : a ^ e ≠ 1 := by
  intro hcon
  rw [← hab] at hcon
  have h1 := powMod_zmod m b e hm he
  rw [hcon, hr] at h1
  have h2 : ((1 : ℕ) : ZMod m) = ((r : ℕ) : ZMod m) := by
    simpa using h1
  have h3 := (ZMod.natCast_eq_natCast_iff 1 r m).mp h2
  exact hner h3.symm

theorem p53_prime : Nat.Prime 9007199254740997 := by
  have h307 : Nat.Prime 307 := by norm_num
  have h2857 : Nat.Prime 2857 := by norm_num
  have h6529 : Nat.Prime 6529 := by norm_num
  have h43691 : Nat.Prime 43691 := by norm_num
  refine lucas_primality 9007199254740997 11 ?_ ?_
  · have hc : ((11 : ℕ) : ZMod 9007199254740997) = (11 : ZMod 9007199254740997) := by
      norm_cast
    rw [← hc, powMod_zmod 9007199254740997 11 (9007199254740997 - 1) (by norm_num)
      (by norm_num)]
    rw [show powMod 11 (9007199254740997 - 1) 9007199254740997 = 1 from by decide]
    norm_num
  · intro q hq hdvd
    have hfact : (9007199254740997 : ℕ) - 1 =
        2 ^ 2 * (3 ^ 2 * (307 * (2857 * (6529 * 43691)))) := by norm_num
    rw [hfact] at hdvd
    rcases (Nat.Prime.dvd_mul hq).mp hdvd with h | h
    · have hq2 : q = 2 :=
        (Nat.prime_dvd_prime_iff_eq hq Nat.prime_two).mp (hq.dvd_of_dvd_pow h)
      subst hq2
      exact powMod_ne_one 9007199254740997 11 ((9007199254740997 - 1) / 2)
        9007199254740996 _ (by norm_cast) (by norm_num) (by norm_num) (by decide) (by decide)
    · rcases (Nat.Prime.dvd_mul hq).mp h with h | h
      · have hq3 : q = 3 :=
          (Nat.prime_dvd_prime_iff_eq hq (by norm_num)).mp (hq.dvd_of_dvd_pow h)
        subst hq3
        exact powMod_ne_one 9007199254740997 11 ((9007199254740997 - 1) / 3)
          310792884292285 _ (by norm_cast) (by norm_num) (by norm_num) (by decide) (by decide)
      · rcases (Nat.Prime.dvd_mul hq).mp h with h | h
        · have hq307 : q = 307 := (Nat.prime_dvd_prime_iff_eq hq h307).mp h
          subst hq307
          exact powMod_ne_one 9007199254740997 11 ((9007199254740997 - 1) / 307)
            5944436762162764 _ (by norm_cast) (by norm_num) (by norm_num) (by decide)
            (by decide)
        · rcases (Nat.Prime.dvd_mul hq).mp h with h | h
          · have hq2857 : q = 2857 := (Nat.prime_dvd_prime_iff_eq hq h2857).mp h
            subst hq2857
            exact powMod_ne_one 9007199254740997 11 ((9007199254740997 - 1) / 2857)
              4098220049253890 _ (by norm_cast) (by norm_num) (by norm_num) (by decide)
              (by decide)
          · rcases (Nat.Prime.dvd_mul hq).mp h with h | h
            · have hq6529 : q = 6529 := (Nat.prime_dvd_prime_iff_eq hq h6529).mp h
              subst hq6529
              exact powMod_ne_one 9007199254740997 11 ((9007199254740997 - 1) / 6529)
                5709545501550138 _ (by norm_cast) (by norm_num) (by norm_num) (by decide)
                (by decide)
            · have hq43691 : q = 43691 := (Nat.prime_dvd_prime_iff_eq hq h43691).mp h
              subst hq43691
              exact powMod_ne_one 9007199254740997 11 ((9007199254740997 - 1) / 43691)
                1995192983210753 _ (by norm_cast) (by norm_num) (by norm_num) (by decide)
                (by decide)

theorem p53_sq_not_prime : ¬ Nat.Prime (9007199254740997 * 9007199254740997) := by
  intro hp
  rcases hp.eq_one_or_self_of_dvd 9007199254740997 ⟨9007199254740997, rfl⟩ with h | h
  · norm_num at h
  · norm_num at h

/-- C3: refuted as stated; the slip is in the code, not the spec.  The claim
says the benchmark's count of primes below every limit `L` equals the
reference sieve's count, assuming the trial loop runs up to the exact integer
square root (`primeCount_eq_sieveCount` proves exactly that for the exact-root
model `is_prime`).  But the program computes the loop bound as
`int(math.sqrt(n))` in double precision.  Let `P = 9007199254740997 = 2^53 + 5`,
a prime (certified here by a Lucas certificate, `p53_prime`).  Python rounds
`float(P*P)` down to `P*P - 25`, and the correctly rounded double square root
of that truncates to `P - 1` (doubles just above 2^53 are even, so no double
equals `P`); hence the program runs `trial_loop (P*P) (P-1)`.  This theorem
shows: (1) that very loop — the source's loop at the bound the program
actually computes — returns `true`, i.e. finds no divisor, because the only
nontrivial divisor of `P*P` below `P*P` is `P` itself, which lies beyond the
bound `P - 1`; together with `P*P` being odd and nonsmall this means the
program accepts `P*P` as prime; (2) the exact-root model `is_prime` (and thus
the sieve) correctly rejects `P*P`, which is (3) genuinely composite.  So for
every limit `L > P*P` the program's count strictly exceeds the sieve's count,
and the claimed for-every-`L` equality fails on the code as written, while
the spec's stated intent (trial division by every candidate up to the true
square root) is exactly what `primeCount_eq_sieveCount` proves correct. -/
theorem float_sqrt_pseudoprime :
    trial_loop (9007199254740997 * 9007199254740997) (9007199254740997 - 1) = true ∧
    is_prime (9007199254740997 * 9007199254740997) = false ∧
    ¬ Nat.Prime (9007199254740997 * 9007199254740997) ∧
    9007199254740997 * 9007199254740997 % 2 = 1 := by
  refine ⟨?_, ?_, p53_sq_not_prime, by decide⟩
  · rw [trial_loop_eq_true_iff]
    intro j h3 hjb _ hdvd
    have hdvd2 : j ∣ 9007199254740997 ^ 2 := by rwa [pow_two]
    rcases (Nat.dvd_prime_pow p53_prime).mp hdvd2 with ⟨k, hk, rfl⟩
    interval_cases k
    · norm_num at h3
    · norm_num at hjb
    · rw [pow_two] at hjb
      norm_num at hjb
  · cases h : is_prime (9007199254740997 * 9007199254740997) with
    | false => rfl
    | true => exact absurd ((is_prime_eq_true_iff _).mp h) p53_sq_not_prime
